import Mathlib

/-!
# klogg: session information store (`src/ui/include/sessioninfo.h`)

A shallow embedding of the `SessionInfo` class and the properties of its
query/mutation contract.

Modelling conventions

* `QString` is `String`, `QByteArray` is a list of bytes, `std::vector<T>` is
  `List T`, `uint64_t topLine` is a natural number (the class only stores and
  returns it, no arithmetic is performed on it).
* An iterator or pointer into `windows_` is the index of the element; the
  past-the-end iterator `windows_.end()` is the index `windows_.size()`, and
  `nullptr` is `none`.
* Member functions that mutate the object return the new object; `remove`
  returns the pair of its `bool` result and the new object.  The `const`
  queries (`windows`, `geometry`, `openFiles`) are functions of the object.
* `LOG_INFO` trace output is not part of the state and is left out.
-/

/-- A `QString`. -/
abbrev QString := String

/-- A `QByteArray`: a sequence of bytes. -/
abbrev QByteArray := List (Fin 256)

/-- Modelled from the spec: `TimelineNodeInfo.h` is not among the sources.  The
specification describes a timeline node as a record that is opaque to the
session store beyond being copyable and persistable, so it is a record with an
uninterpreted payload. -/
structure TimelineNodeInfo where
  payload : List Nat
  deriving DecidableEq, Repr

/-- The nested `struct SessionInfo::OpenFile`, fields in declaration order. -/
structure SessionInfo.OpenFile where
  fileName : QString
  topLine : Nat
  timelineNodes : List TimelineNodeInfo
  viewContext : QString
  deriving DecidableEq, Repr

/-- The nested `struct SessionInfo::Window`. -/
structure SessionInfo.Window where
  id : QString
  geometry : QByteArray
  openFiles : List SessionInfo.OpenFile
  deriving DecidableEq, Repr

/-- The `class SessionInfo`: its only data member is `windows_`. -/
structure SessionInfo where
  windows_ : List SessionInfo.Window
  deriving DecidableEq, Repr

namespace SessionInfo

/-- The constructor `explicit Window( const QString& windowId )`: the geometry
and the open files are default-constructed, that is empty. -/
def Window.mk1 (windowId : QString) : Window :=
  { id := windowId, geometry := [], openFiles := [] }

/-- The call `std::find_if( windows_.begin(), windows_.end(), pred )` with
`pred w = (w.id == windowId)`: the position of the first window whose id is
`windowId`, or the length of the list (the `end()` iterator) when there is
none. -/
def find_if : List Window → QString → Nat
  | [], _ => 0
  | w :: rest, windowId => if w.id = windowId then 0 else find_if rest windowId + 1

/-- The assignment through a pointer `window->field = value`: the element at
position `p` is replaced by `f` of itself, every other element is kept. -/
def assignAt (f : Window → Window) : Nat → List Window → List Window
  | _, [] => []
  | 0, w :: rest => f w :: rest
  | p + 1, w :: rest => w :: assignAt f p rest

/-- A default-constructed `SessionInfo`: no windows. -/
def empty : SessionInfo := { windows_ := [] }

/-- The private `findWindow`: `nullptr` when `find_if` reaches `end()`,
otherwise the address of the window found. -/
def findWindow (s : SessionInfo) (windowId : QString) : Option Nat :=
  let window := find_if s.windows_ windowId
  if window = s.windows_.length then none else some window

/-- `void add( const QString& windowId )`. -/
def add (s : SessionInfo) (windowId : QString) : SessionInfo :=
  if findWindow s windowId = none then
    { windows_ := s.windows_ ++ [Window.mk1 windowId] }
  else s

/-- `bool remove( const QString& windowId )`: the returned flag and the object
after the call. -/
def remove (s : SessionInfo) (windowId : QString) : Bool × SessionInfo :=
  if s.windows_.length > 1 then
    let window := find_if s.windows_ windowId
    if window ≠ s.windows_.length then
      (true, { windows_ := s.windows_.eraseIdx window })
    else (true, s)
  else (false, s)

/-- `QStringList windows() const`. -/
def windows (s : SessionInfo) : List QString :=
  s.windows_.map (fun w => w.id)

/-- `QByteArray geometry( const QString& windowId ) const`. -/
def geometry (s : SessionInfo) (windowId : QString) : QByteArray :=
  match findWindow s windowId with
  | some window =>
    match s.windows_[window]? with
    | some w => w.geometry
    | none => []
  | none => []

/-- `void setGeometry( const QString& windowId, const QByteArray& geometry )`. -/
def setGeometry (s : SessionInfo) (windowId : QString) (geometry : QByteArray) :
    SessionInfo :=
  match findWindow s windowId with
  | some window =>
    { windows_ := assignAt (fun w => { w with geometry := geometry }) window s.windows_ }
  | none => s

/-- `std::vector<OpenFile> openFiles( const QString& windowId ) const`. -/
def openFiles (s : SessionInfo) (windowId : QString) : List OpenFile :=
  match findWindow s windowId with
  | some window =>
    match s.windows_[window]? with
    | some w => w.openFiles
    | none => []
  | none => []

/-- `void setOpenFiles( const QString& windowId, const std::vector<OpenFile>& loaded_files )`. -/
def setOpenFiles (s : SessionInfo) (windowId : QString) (loaded_files : List OpenFile) :
    SessionInfo :=
  match findWindow s windowId with
  | some window =>
    { windows_ := assignAt (fun w => { w with openFiles := loaded_files }) window s.windows_ }
  | none => s

/-- One call of a mutating member function of the public interface, with its
arguments. -/
inductive Call where
  | add (windowId : QString)
  | remove (windowId : QString)
  | setGeometry (windowId : QString) (geometry : QByteArray)
  | setOpenFiles (windowId : QString) (loaded_files : List OpenFile)
  deriving DecidableEq, Repr

/-- The object after one call (the flag returned by `remove` is dropped). -/
def step (s : SessionInfo) : Call → SessionInfo
  | Call.add w => s.add w
  | Call.remove w => (s.remove w).2
  | Call.setGeometry w g => s.setGeometry w g
  | Call.setOpenFiles w fs => s.setOpenFiles w fs

/-- The object after a finite sequence of calls, applied left to right. -/
def run (s : SessionInfo) : List Call → SessionInfo
  | [] => s
  | c :: cs => run (step s c) cs

/-- A state of the object that the public interface can produce from a
default-constructed `SessionInfo`. -/
def Reachable (s : SessionInfo) : Prop :=
  ∃ cs : List Call, run empty cs = s

/-- The calls that create one given window at the end of the list: `add` its
id, then store its geometry and its open files. -/
def callsFor (x : Window) : List Call :=
  [Call.add x.id, Call.setGeometry x.id x.geometry, Call.setOpenFiles x.id x.openFiles]

/-- The calls that create the given windows one after the other. -/
def rebuild : List Window → List Call
  | [] => []
  | x :: rest => callsFor x ++ rebuild rest

/-- The session before call number `i` of a sequence applied to the empty
session (calls are numbered from 0). -/
def stateBefore (cs : List Call) (i : Nat) : SessionInfo :=
  run empty (cs.take i)

/-- Call number `i` is a creating `add` of `w`: it is `add(w)` and `w` is not
among `windows()` when it is made. -/
def createsAt (cs : List Call) (i : Nat) (w : QString) : Bool :=
  decide (cs[i]? = some (Call.add w)) && decide (w ∉ (stateBefore cs i).windows)

/-- Call number `i` takes `w` away: it is `remove(w)`, made when `w` is among
`windows()` and the session holds more than one window. -/
def removesAt (cs : List Call) (i : Nat) (w : QString) : Bool :=
  decide (cs[i]? = some (Call.remove w)) && decide (w ∈ (stateBefore cs i).windows) &&
    decide (1 < (stateBefore cs i).windows.length)

/-- The number of the latest creating `add` of `w` among the first `n` calls. -/
def lastCreationBefore (cs : List Call) (w : QString) : Nat → Option Nat
  | 0 => none
  | n + 1 => if createsAt cs n w then some n else lastCreationBefore cs w n

/-- The time of the most recent creating `add` of `w` in the whole sequence. -/
def lastCreation (cs : List Call) (w : QString) : Option Nat :=
  lastCreationBefore cs w cs.length

/-- The id `w` survives the sequence: it was created, and no call after its
most recent creating `add` takes it away. -/
def survives (cs : List Call) (w : QString) : Bool :=
  match lastCreation cs w with
  | none => false
  | some i => (List.range cs.length).all (fun j => !(decide (i < j) && removesAt cs j w))

/-- Modelled from the spec: the `QSettings` handle is not among the sources.
The specification describes the durable session storage as a key-value store
that supports get and set of structured records keyed by window id, and a
top-level window-id list; the list is absent while no session was saved. -/
structure QSettings where
  windowList : Option (List QString)
  records : QString → Option (QByteArray × List OpenFile)

/-- Modelled from the spec: a store that holds no prior session. -/
def QSettings.blank : QSettings :=
  { windowList := none, records := fun _ => none }

/-- Modelled from the spec: the set operation of the store, which puts the
record `r` under the window id `key` and keeps the records of all other keys. -/
def QSettings.setRecord (settings : QSettings) (key : QString)
    (r : QByteArray × List OpenFile) : QSettings :=
  { settings with records := fun k => if k = key then some r else settings.records k }

/-- Modelled from the spec: `SessionInfo::saveToStorage` is declared in
`sessioninfo.h` but its body is not among the sources.  Following the
specification it serializes the full session: it stores the top-level list of
window ids, and for each window, in order, the record of its geometry and open
files under its id. -/
def saveToStorage (s : SessionInfo) (settings : QSettings) : QSettings :=
  s.windows_.foldl (fun q x => q.setRecord x.id (x.geometry, x.openFiles))
    { settings with windowList := some s.windows }

/-- Modelled from the spec: the windows read back for a list of ids, one get per
id; `none` when a listed id has no record (malformed storage). -/
def readWindows (settings : QSettings) : List QString → Option (List Window)
  | [] => some []
  | windowId :: rest =>
    match settings.records windowId, readWindows settings rest with
    | some r, some ws => some ({ id := windowId, geometry := r.1, openFiles := r.2 } :: ws)
    | _, _ => none

/-- Modelled from the spec: `SessionInfo::retrieveFromStorage` is declared in
`sessioninfo.h` but its body is not among the sources.  Following the
specification it deserializes the full session, replacing what the object
held; absent or malformed storage yields the empty session. -/
def retrieveFromStorage (_s : SessionInfo) (settings : QSettings) : SessionInfo :=
  match settings.windowList with
  | none => empty
  | some ids =>
    match readWindows settings ids with
    | some ws => { windows_ := ws }
    | none => empty

/-- The session of the scenario: the single window `"w1"` holding two files,
built through the public interface. -/
def oneWindow : SessionInfo :=
  run empty
    [Call.add "w1", Call.setGeometry "w1" [1, 2, 3],
     Call.setOpenFiles "w1" [⟨"a.log", 10, [⟨[7]⟩], "ctx-a"⟩, ⟨"b.log", 0, [], ""⟩]]

/-- A session with two windows, built through the public interface. -/
def twoWindows : SessionInfo :=
  run empty
    [Call.add "w1", Call.add "w2", Call.setGeometry "w1" [1, 2, 3],
     Call.setOpenFiles "w2" [⟨"a.log", 10, [⟨[7]⟩], "ctx-a"⟩]]

end SessionInfo

/-! # klogg: the entry point (`src/app/main.cpp`)

`main` is embedded as the sequence of calls it makes on its collaborators,
in program order.  The parsed command line, the configuration and the answer
of the instance coordinator are its inputs. -/

namespace Klogg

/-- The fields of `CliParameters` that `main` reads (`cli.h` is not among the
sources; the names and uses are those of `main.cpp`). -/
structure CliParameters where
  log_level : Int
  log_to_file : Bool
  multi_instance : Bool
  load_session : Bool
  new_session : Bool
  follow_file : Bool
  filenames : List QString
  window_width : Int
  window_height : Int
  deriving DecidableEq, Repr

/-- The settings of `Configuration` that `main` reads (`configuration.h` is not
among the sources). -/
structure Configuration where
  enableQtHighDpi : Bool
  scaleFactorRounding : Int
  enableLogging : Bool
  loggingLevel : Nat
  style : QString
  loadLastSession : Bool
  deriving DecidableEq, Repr

/-- What the `KloggApp` object answers to `app.isSecondary()` (`kloggapp.h` is
not among the sources). -/
structure KloggApp where
  isSecondary : Bool
  deriving DecidableEq, Repr

/-- The value of the pointer `mw`: the window returned by `app.reloadSession()`
or the one returned by `app.newWindow()`. -/
inductive MainWindow where
  | reloaded
  | fresh
  deriving DecidableEq, Repr

/-- A call made by `main`, with its arguments; the calls on `mw` carry the
window they are made on. -/
inductive Action where
  | setApplicationAttributes (enableQtHdpi : Bool) (scaleFactorRounding : Int)
  | initLogger (log_level : Int) (log_to_file : Bool)
  | initCrashHandler
  | enableLogging (enable : Bool) (level : Nat)
  | sendFilesToPrimaryInstance (filenames : List QString)
  | applyStyle (style : QString)
  | reloadSession
  | newWindow
  | reloadGeometry (mw : MainWindow)
  | showWindow (mw : MainWindow)
  | resize (mw : MainWindow) (width height : Int)
  | loadInitialFile (mw : MainWindow) (filename : QString) (follow : Bool)
  | clearInactiveSessions
  | startBackgroundTasks
  | exec
  deriving DecidableEq, Repr

/-- The condition of the `if` at lines 134-136 of `main.cpp`. -/
def restoreCondition (config : Configuration) (parameters : CliParameters) : Bool :=
  parameters.load_session
    || (parameters.filenames.isEmpty && !parameters.new_session && config.loadLastSession)

/-- The `else` branch of `main` (lines 130-158): the value of `startNewSession`
and of `mw` after the restore-or-create step is the pair `r`. -/
def primaryPath (config : Configuration) (parameters : CliParameters) : List Action :=
  let r : Bool × MainWindow × List Action :=
    if restoreCondition config parameters then
      (false, MainWindow.reloaded, [Action.reloadSession])
    else
      (true, MainWindow.fresh,
        [Action.newWindow, Action.reloadGeometry MainWindow.fresh,
         Action.showWindow MainWindow.fresh])
  let startNewSession := r.1
  let mw := r.2.1
  [Action.applyStyle config.style] ++ r.2.2
    ++ (if parameters.window_width > 0 && parameters.window_height > 0 then
          [Action.resize mw parameters.window_width parameters.window_height]
        else [])
    ++ parameters.filenames.map
        (fun filename => Action.loadInitialFile mw filename parameters.follow_file)
    ++ (if startNewSession then [Action.clearInactiveSessions] else [])
    ++ [Action.startBackgroundTasks]

/-- The function `main` of `main.cpp`: the calls it makes, up to and including
`app.exec()`. -/
def main (config : Configuration) (parameters : CliParameters) (app : KloggApp) :
    List Action :=
  [Action.setApplicationAttributes config.enableQtHighDpi config.scaleFactorRounding,
   Action.initLogger parameters.log_level parameters.log_to_file,
   Action.initCrashHandler,
   Action.enableLogging config.enableLogging config.loggingLevel]
    ++ (if !parameters.multi_instance && app.isSecondary then
          [Action.sendFilesToPrimaryInstance parameters.filenames]
        else primaryPath config parameters)
    ++ [Action.exec]

/-- The calls that only the primary path of `main` makes. -/
def Action.isPrimaryPathAction : Action → Bool
  | Action.applyStyle _ => true
  | Action.reloadSession => true
  | Action.newWindow => true
  | Action.reloadGeometry _ => true
  | Action.showWindow _ => true
  | Action.resize _ _ _ => true
  | Action.loadInitialFile _ _ _ => true
  | Action.clearInactiveSessions => true
  | Action.startBackgroundTasks => true
  | _ => false

/-- The calls of `loadInitialFile`. -/
def Action.isLoadInitialFile : Action → Bool
  | Action.loadInitialFile _ _ _ => true
  | _ => false

/-- A configuration with auto-restore of the last session enabled. -/
def autoRestoreConfig : Configuration :=
  { enableQtHighDpi := true, scaleFactorRounding := 0, enableLogging := false,
    loggingLevel := 0, style := "Fusion", loadLastSession := true }

/-- A command line with no file and no flag. -/
def plainParameters : CliParameters :=
  { log_level := 0, log_to_file := false, multi_instance := false, load_session := false,
    new_session := false, follow_file := false, filenames := [], window_width := 0,
    window_height := 0 }

/-- A command line that only asks for a new session. -/
def newSessionParameters : CliParameters :=
  { plainParameters with new_session := true }

/-- A command line with two files and the follow flag. -/
def twoFilesParameters : CliParameters :=
  { plainParameters with filenames := ["a.log", "b.log"], follow_file := true }

/-- A command line with two files that allows several instances. -/
def multiInstanceParameters : CliParameters :=
  { plainParameters with multi_instance := true, filenames := ["a.log", "b.log"] }

/-- The application object of a primary instance. -/
def primaryApp : KloggApp := { isSecondary := false }

/-- The application object of a secondary instance. -/
def secondaryApp : KloggApp := { isSecondary := true }

end Klogg

namespace SessionInfo

/-! ## Facts about `find_if` and assignment through a pointer -/

theorem find_if_le (ws : List Window) (w : QString) : find_if ws w ≤ ws.length := by
  induction ws with
  | nil => simp [find_if]
  | cons x rest ih =>
    by_cases h : x.id = w
    · simp [find_if, h]
    · simp [find_if, h, ih]

theorem find_if_eq_length_iff (ws : List Window) (w : QString) :
    find_if ws w = ws.length ↔ w ∉ ws.map (fun x => x.id) := by
  induction ws with
  | nil => simp [find_if]
  | cons x rest ih =>
    by_cases h : x.id = w
    · simp [find_if, h]
    · have h2 : ¬ w = x.id := fun e => h e.symm
      simp [find_if, h, h2, ih]

theorem find_if_lt_iff (ws : List Window) (w : QString) :
    find_if ws w < ws.length ↔ w ∈ ws.map (fun x => x.id) := by
  have h1 := find_if_le ws w
  have h2 := find_if_eq_length_iff ws w
  constructor
  · intro h
    by_contra hn
    have := h2.mpr hn
    omega
  · intro h
    have : find_if ws w ≠ ws.length := fun e => (h2.mp e) h
    omega

theorem getElem?_find_if (ws : List Window) (w : QString)
    (h : w ∈ ws.map (fun x => x.id)) :
    ∃ x, ws[find_if ws w]? = some x ∧ x.id = w ∧ x ∈ ws := by
  induction ws with
  | nil => simp at h
  | cons x rest ih =>
    by_cases hx : x.id = w
    · exact ⟨x, by simp [find_if, hx], hx, by simp⟩
    · have h2 : ¬ w = x.id := fun e => hx e.symm
      have hr : w ∈ rest.map (fun x => x.id) := by
        simpa [h2] using h
      obtain ⟨y, hy, hyid, hmem⟩ := ih hr
      exact ⟨y, by simpa [find_if, hx] using hy, hyid, by simp [hmem]⟩

theorem length_assignAt (f : Window → Window) (p : Nat) (ws : List Window) :
    (assignAt f p ws).length = ws.length := by
  induction ws generalizing p with
  | nil => cases p <;> simp [assignAt]
  | cons x rest ih => cases p <;> simp [assignAt, ih]

theorem map_id_assignAt (f : Window → Window) (hf : ∀ x, (f x).id = x.id) (p : Nat)
    (ws : List Window) :
    (assignAt f p ws).map (fun x => x.id) = ws.map (fun x => x.id) := by
  induction ws generalizing p with
  | nil => cases p <;> simp [assignAt]
  | cons x rest ih => cases p <;> simp [assignAt, ih, hf]

theorem find_if_assignAt (f : Window → Window) (hf : ∀ x, (f x).id = x.id) (p : Nat)
    (ws : List Window) (w : QString) :
    find_if (assignAt f p ws) w = find_if ws w := by
  induction ws generalizing p with
  | nil => cases p <;> simp [assignAt]
  | cons x rest ih => cases p <;> simp [assignAt, find_if, ih, hf]

theorem getElem?_assignAt_self (f : Window → Window) (p : Nat) (ws : List Window) :
    (assignAt f p ws)[p]? = ws[p]?.map f := by
  induction ws generalizing p with
  | nil => cases p <;> simp [assignAt]
  | cons x rest ih => cases p <;> simp [assignAt, ih]

theorem getElem?_assignAt_ne (f : Window → Window) (p q : Nat) (ws : List Window)
    (h : q ≠ p) : (assignAt f p ws)[q]? = ws[q]? := by
  induction ws generalizing p q with
  | nil => cases p <;> simp [assignAt]
  | cons x rest ih =>
    cases p with
    | zero =>
      cases q with
      | zero => exact absurd rfl h
      | succ q => simp [assignAt]
    | succ p =>
      cases q with
      | zero => simp [assignAt]
      | succ q => simpa [assignAt] using ih p q (fun e => h (by rw [e]))

theorem assignAt_length (f : Window → Window) (ws : List Window) :
    assignAt f ws.length ws = ws := by
  induction ws with
  | nil => simp [assignAt]
  | cons x rest ih => simp [assignAt, ih]

theorem eraseIdx_find_if (ws : List Window) (w : QString)
    (hnd : (ws.map (fun x => x.id)).Nodup) (h : w ∈ ws.map (fun x => x.id)) :
    ws.eraseIdx (find_if ws w) = ws.filter (fun x => !decide (x.id = w)) := by
  induction ws with
  | nil => simp at h
  | cons x rest ih =>
    have hnd2 := List.nodup_cons.mp hnd
    by_cases hx : x.id = w
    · have hnot : ∀ y ∈ rest, y.id ≠ w := by
        intro y hy e
        apply hnd2.1
        simp only [List.mem_map]
        exact ⟨y, hy, by rw [e, hx]⟩
      have hf : rest.filter (fun x => !decide (x.id = w)) = rest := by
        apply List.filter_eq_self.mpr
        intro y hy
        simpa using hnot y hy
      simp [find_if, hx, hf]
    · have h2 : ¬ w = x.id := fun e => hx e.symm
      have hr : w ∈ rest.map (fun x => x.id) := by
        simpa [h2] using h
      simp [find_if, hx, ih hnd2.2 hr]

theorem getElem?_find_if_eq_find? (ws : List Window) (w : QString) :
    ws[find_if ws w]? = ws.find? (fun x => decide (x.id = w)) := by
  induction ws with
  | nil => simp [find_if]
  | cons x rest ih =>
    by_cases hx : x.id = w
    · simp [find_if, hx]
    · simp [find_if, hx, ih]

/-! ## The member functions in terms of the window list -/

theorem findWindow_eq_none_iff (s : SessionInfo) (w : QString) :
    s.findWindow w = none ↔ w ∉ s.windows := by
  unfold findWindow windows
  simp only []
  rw [← find_if_eq_length_iff]
  by_cases h : find_if s.windows_ w = s.windows_.length <;> simp [h]

theorem findWindow_of_mem (s : SessionInfo) (w : QString) (h : w ∈ s.windows) :
    s.findWindow w = some (find_if s.windows_ w) := by
  have hne : find_if s.windows_ w ≠ s.windows_.length := fun e =>
    (find_if_eq_length_iff s.windows_ w).mp e h
  simp [findWindow, hne]

theorem findWindow_valid (s : SessionInfo) (w : QString) (p : Nat)
    (h : s.findWindow w = some p) : ∃ x, s.windows_[p]? = some x ∧ x.id = w := by
  have hw : w ∈ s.windows := by
    by_contra hn
    rw [(findWindow_eq_none_iff s w).mpr hn] at h
    exact Option.noConfusion h
  rw [findWindow_of_mem s w hw] at h
  obtain ⟨x, hx, hid, -⟩ := getElem?_find_if s.windows_ w hw
  exact ⟨x, by rw [← Option.some.inj h]; exact hx, hid⟩

theorem findWindow_of_not_mem (s : SessionInfo) (w : QString) (h : w ∉ s.windows) :
    s.findWindow w = none :=
  (findWindow_eq_none_iff s w).mpr h

theorem geometry_eq_find? (s : SessionInfo) (w : QString) :
    s.geometry w =
      match s.windows_.find? (fun x => decide (x.id = w)) with
      | some x => x.geometry
      | none => [] := by
  by_cases h : w ∈ s.windows
  · simp only [geometry, findWindow_of_mem s w h, getElem?_find_if_eq_find?]
  · have hn : s.windows_.find? (fun x => decide (x.id = w)) = none := by
      simp only [windows, List.mem_map, not_exists, not_and] at h
      simp only [List.find?_eq_none, decide_eq_true_eq]
      exact fun x hx => h x hx
    simp only [geometry, findWindow_of_not_mem s w h, hn]

theorem openFiles_eq_find? (s : SessionInfo) (w : QString) :
    s.openFiles w =
      match s.windows_.find? (fun x => decide (x.id = w)) with
      | some x => x.openFiles
      | none => [] := by
  by_cases h : w ∈ s.windows
  · simp only [openFiles, findWindow_of_mem s w h, getElem?_find_if_eq_find?]
  · have hn : s.windows_.find? (fun x => decide (x.id = w)) = none := by
      simp only [windows, List.mem_map, not_exists, not_and] at h
      simp only [List.find?_eq_none, decide_eq_true_eq]
      exact fun x hx => h x hx
    simp only [openFiles, findWindow_of_not_mem s w h, hn]

theorem windows_add (s : SessionInfo) (w : QString) :
    (s.add w).windows = if w ∈ s.windows then s.windows else s.windows ++ [w] := by
  by_cases h : w ∈ s.windows
  · simp [add, findWindow_of_mem s w h, h]
  · rw [if_neg h]
    simp [add, findWindow_of_not_mem s w h, windows, Window.mk1]

theorem add_of_mem (s : SessionInfo) (w : QString) (h : w ∈ s.windows) : s.add w = s := by
  simp [add, findWindow_of_mem s w h]

theorem windows_setGeometry (s : SessionInfo) (w : QString) (g : QByteArray) :
    (s.setGeometry w g).windows = s.windows := by
  unfold setGeometry
  cases s.findWindow w with
  | none => rfl
  | some p =>
    exact map_id_assignAt (fun x => { x with geometry := g }) (fun _ => rfl) p s.windows_

theorem windows_setOpenFiles (s : SessionInfo) (w : QString) (fs : List OpenFile) :
    (s.setOpenFiles w fs).windows = s.windows := by
  unfold setOpenFiles
  cases s.findWindow w with
  | none => rfl
  | some p =>
    exact map_id_assignAt (fun x => { x with openFiles := fs }) (fun _ => rfl) p s.windows_

theorem windows_remove_sublist (s : SessionInfo) (w : QString) :
    List.Sublist (s.remove w).2.windows s.windows := by
  unfold remove windows
  by_cases h1 : s.windows_.length > 1
  · by_cases h2 : find_if s.windows_ w = s.windows_.length
    · simp [h1, h2]
    · simp only [h1, if_true, ne_eq, h2, not_false_eq_true]
      exact (List.eraseIdx_sublist _ _).map _
  · simp [h1]

theorem length_windows_remove (s : SessionInfo) (w : QString) :
    1 ≤ s.windows.length → 1 ≤ (s.remove w).2.windows.length := by
  intro h0
  unfold remove windows at *
  by_cases h1 : s.windows_.length > 1
  · by_cases h2 : find_if s.windows_ w = s.windows_.length
    · simpa [h1, h2] using h0
    · simp only [h1, if_true, ne_eq, h2, not_false_eq_true, List.length_map,
        List.length_eraseIdx]
      have := find_if_le s.windows_ w
      split <;> omega
  · simpa [h1] using h0

theorem nodup_windows_step (s : SessionInfo) (c : Call) (h : s.windows.Nodup) :
    (s.step c).windows.Nodup := by
  cases c with
  | add w =>
    simp only [step, windows_add]
    by_cases hw : w ∈ s.windows
    · simpa [hw] using h
    · simp only [hw, if_false]
      exact List.Nodup.append h (List.nodup_singleton w) (by simpa using hw)
  | remove w => exact List.Nodup.sublist (windows_remove_sublist s w) h
  | setGeometry w g => simpa [step, windows_setGeometry] using h
  | setOpenFiles w fs => simpa [step, windows_setOpenFiles] using h

theorem nodup_windows_run (cs : List Call) (s : SessionInfo) (h : s.windows.Nodup) :
    (s.run cs).windows.Nodup := by
  induction cs generalizing s with
  | nil => exact h
  | cons c cs ih => exact ih (s.step c) (nodup_windows_step s c h)

theorem nodup_windows_of_reachable (s : SessionInfo) (h : Reachable s) :
    s.windows.Nodup := by
  obtain ⟨cs, rfl⟩ := h
  exact nodup_windows_run cs empty (by simp [empty, windows])

theorem length_windows_step (s : SessionInfo) (c : Call) (h : 1 ≤ s.windows.length) :
    1 ≤ (s.step c).windows.length := by
  cases c with
  | add w =>
    simp only [step, windows_add]
    split
    · exact h
    · simp
  | remove w => exact length_windows_remove s w h
  | setGeometry w g => simpa [step, windows_setGeometry] using h
  | setOpenFiles w fs => simpa [step, windows_setOpenFiles] using h

theorem length_windows_run (cs : List Call) (s : SessionInfo) (h : 1 ≤ s.windows.length) :
    1 ≤ (s.run cs).windows.length := by
  induction cs generalizing s with
  | nil => exact h
  | cons c cs ih => exact ih (s.step c) (length_windows_step s c h)

theorem findWindow_assignAt (s : SessionInfo) (f : Window → Window)
    (hf : ∀ x, (f x).id = x.id) (p : Nat) (w : QString) :
    findWindow { windows_ := assignAt f p s.windows_ } w = s.findWindow w := by
  simp only [findWindow, find_if_assignAt f hf, length_assignAt]

theorem remove_of_mem (s : SessionInfo) (w : QString) (hlen : 1 < s.windows.length)
    (hw : w ∈ s.windows) :
    s.remove w = (true, { windows_ := s.windows_.eraseIdx (find_if s.windows_ w) }) := by
  have h1 : s.windows_.length > 1 := by simpa [windows] using hlen
  have h2 : find_if s.windows_ w ≠ s.windows_.length := fun e =>
    (find_if_eq_length_iff s.windows_ w).mp e hw
  simp [remove, h1, h2]

theorem find?_filter_other (ws : List Window) (w v : QString) (h : v ≠ w) :
    (ws.filter (fun x => !decide (x.id = w))).find? (fun x => decide (x.id = v)) =
      ws.find? (fun x => decide (x.id = v)) := by
  rw [List.find?_filter]
  congr 1
  funext a
  by_cases ha : a.id = v
  · simp [ha, h]
  · simp [ha]

/-! ## Reachable states are the states with unique window ids -/

theorem run_append (s : SessionInfo) (cs ds : List Call) :
    s.run (cs ++ ds) = (s.run cs).run ds := by
  induction cs generalizing s with
  | nil => rfl
  | cons c cs ih => exact ih (s.step c)

theorem find_if_append_last (ws : List Window) (y : Window) (w : QString)
    (h : w ∉ ws.map (fun x => x.id)) (hy : y.id = w) :
    find_if (ws ++ [y]) w = ws.length := by
  induction ws with
  | nil => simp [find_if, hy]
  | cons x rest ih =>
    have hx : ¬ x.id = w := fun e => h (by simp [e])
    have hr : w ∉ rest.map (fun x => x.id) := fun e => h (by simp at e ⊢; exact Or.inr e)
    simp [find_if, hx, ih hr]

theorem assignAt_append_last (f : Window → Window) (ws : List Window) (y : Window) :
    assignAt f ws.length (ws ++ [y]) = ws ++ [f y] := by
  induction ws with
  | nil => simp [assignAt]
  | cons x rest ih => simp [assignAt, ih]

theorem run_callsFor (s : SessionInfo) (x : Window) (h : x.id ∉ s.windows) :
    s.run (callsFor x) = { windows_ := s.windows_ ++ [x] } := by
  have hfi : ∀ y : Window, y.id = x.id →
      findWindow { windows_ := s.windows_ ++ [y] } x.id = some s.windows_.length := by
    intro y hy
    simp [findWindow, find_if_append_last s.windows_ y x.id h hy]
  have h1 : s.add x.id = { windows_ := s.windows_ ++ [Window.mk1 x.id] } := by
    simp [add, findWindow_of_not_mem s x.id h]
  have h2 : setGeometry { windows_ := s.windows_ ++ [Window.mk1 x.id] } x.id x.geometry
      = { windows_ := s.windows_ ++ [⟨x.id, x.geometry, []⟩] } := by
    simp only [setGeometry, Window.mk1, hfi ⟨x.id, [], []⟩ rfl, assignAt_append_last]
  have h3 : setOpenFiles { windows_ := s.windows_ ++ [⟨x.id, x.geometry, []⟩] }
      x.id x.openFiles = { windows_ := s.windows_ ++ [x] } := by
    simp only [setOpenFiles, hfi ⟨x.id, x.geometry, []⟩ rfl, assignAt_append_last]
  simp only [callsFor, run, step, h1, h2, h3]

theorem run_rebuild (ws : List Window) (s : SessionInfo)
    (hnd : (ws.map (fun x => x.id)).Nodup)
    (hdis : ∀ x ∈ ws, x.id ∉ s.windows) :
    s.run (rebuild ws) = { windows_ := s.windows_ ++ ws } := by
  induction ws generalizing s with
  | nil => simp [rebuild, run]
  | cons x rest ih =>
    have hnd2 := List.nodup_cons.mp hnd
    rw [rebuild, run_append, run_callsFor s x (hdis x (by simp))]
    rw [ih _ hnd2.2]
    · simp
    · intro y hy hmem
      simp only [windows, List.map_append, List.map_cons, List.map_nil, List.mem_append,
        List.mem_singleton] at hmem
      rcases hmem with hmem | hmem
      · exact hdis y (by simp [hy]) hmem
      · apply hnd2.1
        simp only [List.mem_map]
        exact ⟨y, hy, hmem⟩

theorem reachable_iff_nodup (s : SessionInfo) : Reachable s ↔ s.windows.Nodup := by
  constructor
  · exact nodup_windows_of_reachable s
  · intro h
    refine ⟨rebuild s.windows_, ?_⟩
    rw [run_rebuild s.windows_ empty h (by simp [empty, windows])]
    simp [empty]

/-! ## The contract of `remove` on the last window, and of `add` -/

/-- C1: when the session holds exactly one window, `remove(w)` returns false and
leaves the session unchanged, whatever `w` is: the object is the same, hence so
are the window list, every geometry and every open-file list. -/
theorem remove_last_window_refused (s : SessionInfo) (w : QString)
    (h : s.windows.length = 1) :
    s.remove w = (false, s) ∧ (s.remove w).1 = false ∧
      (s.remove w).2.windows = s.windows ∧
      (∀ v, (s.remove w).2.geometry v = s.geometry v) ∧
      (∀ v, (s.remove w).2.openFiles v = s.openFiles v) := by
  have hlen : ¬ s.windows_.length > 1 := by
    simp only [windows, List.length_map] at h
    omega
  have hr : s.remove w = (false, s) := by simp [remove, hlen]
  rw [hr]
  exact ⟨rfl, rfl, rfl, fun _ => rfl, fun _ => rfl⟩

/-- C1, the scenario: the session with the single window `"w1"` holding two
open files refuses `remove("w1")`, and `windows()` is still `["w1"]`. -/
theorem remove_last_window_refused_witness :
    oneWindow.windows.length = 1 ∧ (oneWindow.openFiles "w1").length = 2 ∧
      (oneWindow.remove "w1").1 = false ∧
      (oneWindow.remove "w1").2.windows = oneWindow.windows ∧
      oneWindow.windows = ["w1"] :=
  ⟨by decide, by decide, (remove_last_window_refused oneWindow "w1" (by decide)).2.1,
    (remove_last_window_refused oneWindow "w1" (by decide)).2.2.1, by decide⟩

/-- C2: after `add(w)` for an id that is not among `windows()`, the list
`windows()` contains `w` exactly once; in every session state (a state reached
from the empty session through the public interface, which by
`reachable_iff_nodup` is any state whose window ids are unique) `add(w)`
followed by a second `add(w)` leaves `w` exactly once in `windows()`; and the
second `add(w)` never changes the object at all, so it creates no duplicate. -/
theorem add_contains_once (s : SessionInfo) (w : QString) :
    (w ∉ s.windows → (s.add w).windows.count w = 1) ∧
      (Reachable s → ((s.add w).add w).windows.count w = 1) ∧
      (s.add w).add w = s.add w := by
  have hmem : w ∈ (s.add w).windows := by
    rw [windows_add]
    split
    · assumption
    · simp
  have hidem : (s.add w).add w = s.add w := add_of_mem (s.add w) w hmem
  refine ⟨?_, ?_, hidem⟩
  · intro hw
    rw [windows_add, if_neg hw, List.count_append, List.count_eq_zero_of_not_mem hw]
    simp
  · intro hr
    rw [hidem]
    have hnd : (s.add w).windows.Nodup := nodup_windows_step s (Call.add w)
      (nodup_windows_of_reachable s hr)
    exact List.count_eq_one_of_mem hnd hmem

/-- C2 on concrete sessions: `"w3"` is new to the two-window session and is
listed once after one `add` and after two. -/
theorem add_contains_once_witness :
    "w3" ∉ twoWindows.windows ∧ (twoWindows.add "w3").windows.count "w3" = 1 ∧
      ((twoWindows.add "w3").add "w3").windows.count "w3" = 1 ∧
      ((twoWindows.add "w1").add "w1").windows.count "w1" = 1 :=
  ⟨by decide, (add_contains_once twoWindows "w3").1 (by decide),
    (add_contains_once twoWindows "w3").2.1 ⟨_, rfl⟩,
    (add_contains_once twoWindows "w1").2.1 ⟨_, rfl⟩⟩

/-- C3: window ids are unique in every reachable state: after any finite
sequence of `add`, `remove`, `setGeometry` and `setOpenFiles` calls applied to
the empty session, `windows()` has no repeated id. -/
theorem windows_unique_after_calls (cs : List Call) : (run empty cs).windows.Nodup :=
  nodup_windows_run cs empty (by simp [empty, windows])

/-- C4: a session that has at least one window has at least one window after
every step of any finite sequence of `add`, `remove`, `setGeometry` and
`setOpenFiles` calls (`cs.take n` is the sequence up to its `n`-th step). -/
theorem windows_never_empty (s : SessionInfo) (h : s.windows ≠ []) (cs : List Call)
    (n : Nat) : (run s (cs.take n)).windows ≠ [] := by
  have h1 : 1 ≤ s.windows.length := by
    cases hs : s.windows with
    | nil => exact absurd hs h
    | cons a l => simp
  have h2 := length_windows_run (cs.take n) s h1
  intro e
  rw [e] at h2
  simp at h2

/-- C4 on a concrete session: three removals in a row from the two-window
session leave a window. -/
theorem windows_never_empty_witness :
    twoWindows.windows ≠ [] ∧
      (run twoWindows
        ([Call.remove "w1", Call.remove "w2", Call.remove "w1"].take 3)).windows ≠ [] :=
  ⟨by decide,
    windows_never_empty twoWindows (by decide)
      [Call.remove "w1", Call.remove "w2", Call.remove "w1"] 3⟩

/-- C5: `remove(w)` returns true exactly when the session held more than one
window before the call, whether or not `w` is present; with two or more windows
and `w` absent it returns true and the session is unchanged. -/
theorem remove_returns_true_iff (s : SessionInfo) (w : QString) :
    ((s.remove w).1 = true ↔ 1 < s.windows.length) ∧
      (1 < s.windows.length → w ∉ s.windows → s.remove w = (true, s)) := by
  have hl : s.windows.length = s.windows_.length := by simp [windows]
  rw [hl]
  constructor
  · by_cases h1 : s.windows_.length > 1
    · by_cases h2 : find_if s.windows_ w = s.windows_.length <;> simp [remove, h1, h2]
    · simp [remove, h1]
  · intro h1 hw
    have h2 : find_if s.windows_ w = s.windows_.length :=
      (find_if_eq_length_iff s.windows_ w).mpr hw
    have h1' : s.windows_.length > 1 := h1
    simp [remove, h1', h2]

/-- C5 on concrete sessions: removing the absent id `"w9"` from the two-window
session returns true and changes nothing; from the one-window session it
returns false. -/
theorem remove_returns_true_iff_witness :
    1 < twoWindows.windows.length ∧ "w9" ∉ twoWindows.windows ∧
      twoWindows.remove "w9" = (true, twoWindows) ∧
      ¬ (oneWindow.remove "w9").1 = true :=
  ⟨by decide, by decide,
    (remove_returns_true_iff twoWindows "w9").2 (by decide) (by decide),
    fun h => absurd ((remove_returns_true_iff oneWindow "w9").1.mp h) (by decide)⟩

/-! ## Removal of a present window, and the accessor round trips -/

/-- C6: in a state reachable from the empty session that holds more than one
window, `remove(w)` of a present id `w` returns true; afterwards `windows()`
no longer contains `w` and is shorter by exactly one; the windows kept are
exactly the windows whose id is not `w`, as the same records (same geometry,
same open files) in the same relative order, so every other id is still
listed and its `geometry` and `openFiles` answers are unchanged. -/
theorem remove_present (s : SessionInfo) (w : QString) (hr : Reachable s)
    (hlen : 1 < s.windows.length) (hw : w ∈ s.windows) :
    (s.remove w).1 = true ∧
      w ∉ (s.remove w).2.windows ∧
      (s.remove w).2.windows.length + 1 = s.windows.length ∧
      (s.remove w).2.windows_ = s.windows_.filter (fun x => !decide (x.id = w)) ∧
      (s.remove w).2.windows = s.windows.filter (fun v => !decide (v = w)) ∧
      (∀ v, v ≠ w → v ∈ s.windows → v ∈ (s.remove w).2.windows) ∧
      (∀ v, v ≠ w → (s.remove w).2.geometry v = s.geometry v ∧
        (s.remove w).2.openFiles v = s.openFiles v) := by
  have hnd : (s.windows_.map (fun x => x.id)).Nodup := nodup_windows_of_reachable s hr
  have hrm := remove_of_mem s w hlen hw
  have hfil := eraseIdx_find_if s.windows_ w hnd hw
  have hlt : find_if s.windows_ w < s.windows_.length := (find_if_lt_iff s.windows_ w).mpr hw
  have hws : (s.remove w).2.windows_ = s.windows_.filter (fun x => !decide (x.id = w)) := by
    rw [hrm, ← hfil]
  have hwin : (s.remove w).2.windows = s.windows.filter (fun v => !decide (v = w)) := by
    simp only [windows, hws, List.filter_map]
    rfl
  refine ⟨by rw [hrm], ?_, ?_, hws, hwin, ?_, ?_⟩
  · rw [hwin]
    simp
  · have hl : (s.remove w).2.windows_.length = s.windows_.length - 1 := by
      rw [hrm]
      exact List.length_eraseIdx_of_lt hlt
    simp only [windows, List.length_map, hl]
    omega
  · intro v hv hmem
    rw [hwin]
    simp [hmem, hv]
  · intro v hv
    rw [geometry_eq_find?, openFiles_eq_find?, geometry_eq_find?, openFiles_eq_find?, hws,
      find?_filter_other s.windows_ w v hv]
    exact ⟨rfl, rfl⟩

/-- C6 on a concrete session: removing `"w1"` from the two-window session
leaves exactly `"w2"` with its open file. -/
theorem remove_present_witness :
    Reachable twoWindows ∧ 1 < twoWindows.windows.length ∧ "w1" ∈ twoWindows.windows ∧
      "w1" ∉ (twoWindows.remove "w1").2.windows ∧
      (twoWindows.remove "w1").2.windows.length + 1 = twoWindows.windows.length :=
  ⟨⟨_, rfl⟩, by decide, by decide,
    (remove_present twoWindows "w1" ⟨_, rfl⟩ (by decide) (by decide)).2.1,
    (remove_present twoWindows "w1" ⟨_, rfl⟩ (by decide) (by decide)).2.2.1⟩

/-- C7: for a window id `w` present in the session and any blob `g`, empty or
not, `setGeometry(w, g)` followed by `geometry(w)` returns exactly `g`. -/
theorem geometry_setGeometry (s : SessionInfo) (w : QString) (g : QByteArray)
    (hw : w ∈ s.windows) : (s.setGeometry w g).geometry w = g := by
  obtain ⟨x, hx, -, -⟩ := getElem?_find_if s.windows_ w hw
  have hf := findWindow_of_mem s w hw
  simp only [setGeometry, hf, geometry]
  rw [findWindow_assignAt s (fun x => { x with geometry := g }) (fun _ => rfl), hf]
  simp only [getElem?_assignAt_self, hx, Option.map_some']

/-- C7 on a concrete session: a three-byte blob stored for `"w2"` is read back
unchanged. -/
theorem geometry_setGeometry_witness :
    "w2" ∈ twoWindows.windows ∧ (twoWindows.setGeometry "w2" [9, 0, 255]).geometry "w2"
      = [9, 0, 255] :=
  ⟨by decide, geometry_setGeometry twoWindows "w2" [9, 0, 255] (by decide)⟩

/-- C8: for a window id `w` present in the session and any list `files` of
`OpenFile` records, the empty list included, `setOpenFiles(w, files)` followed
by `openFiles(w)` returns `files` itself: the same records in the same order,
whatever list the window held before. -/
theorem openFiles_setOpenFiles (s : SessionInfo) (w : QString) (files : List OpenFile)
    (hw : w ∈ s.windows) : (s.setOpenFiles w files).openFiles w = files := by
  obtain ⟨x, hx, -, -⟩ := getElem?_find_if s.windows_ w hw
  have hf := findWindow_of_mem s w hw
  simp only [setOpenFiles, hf, openFiles]
  rw [findWindow_assignAt s (fun x => { x with openFiles := files }) (fun _ => rfl), hf]
  simp only [getElem?_assignAt_self, hx, Option.map_some']

/-- C8 on a concrete session: window `"w2"` holds one file; the empty list
replaces it, and a two-file list replaces it rather than being appended. -/
theorem openFiles_setOpenFiles_witness :
    "w2" ∈ twoWindows.windows ∧ (twoWindows.openFiles "w2").length = 1 ∧
      (twoWindows.setOpenFiles "w2" []).openFiles "w2" = [] ∧
      (twoWindows.setOpenFiles "w2"
          [⟨"x.log", 5, [⟨[1]⟩, ⟨[2]⟩], "v"⟩, ⟨"y.log", 0, [], ""⟩]).openFiles "w2"
        = [⟨"x.log", 5, [⟨[1]⟩, ⟨[2]⟩], "v"⟩, ⟨"y.log", 0, [], ""⟩] :=
  ⟨by decide, by decide, openFiles_setOpenFiles twoWindows "w2" [] (by decide),
    openFiles_setOpenFiles twoWindows "w2" _ (by decide)⟩

/-! ## Unknown window ids -/

/-- C9: for a window id that is not among `windows()`, `geometry(w)` is the
empty blob and `openFiles(w)` is the empty sequence.  Both queries are total
functions of the session, which they do not modify. -/
theorem queries_unknown_id (s : SessionInfo) (w : QString) (hw : w ∉ s.windows) :
    s.geometry w = [] ∧ s.openFiles w = [] := by
  have hf := findWindow_of_not_mem s w hw
  simp only [geometry, openFiles, hf, and_self]

/-- C9 on a concrete session: `"w9"` is unknown to the two-window session. -/
theorem queries_unknown_id_witness :
    "w9" ∉ twoWindows.windows ∧ twoWindows.geometry "w9" = [] ∧
      twoWindows.openFiles "w9" = [] :=
  ⟨by decide, queries_unknown_id twoWindows "w9" (by decide)⟩

/-- C10: for a window id that is not among `windows()`, `setGeometry(w, g)` and
`setOpenFiles(w, fs)` each leave the whole session object unchanged, hence the
window list, every geometry and every open-file list; no window with id `w`
appears. -/
theorem setters_unknown_id (s : SessionInfo) (w : QString) (g : QByteArray)
    (fs : List OpenFile) (hw : w ∉ s.windows) :
    s.setGeometry w g = s ∧ s.setOpenFiles w fs = s ∧
      w ∉ (s.setGeometry w g).windows ∧ w ∉ (s.setOpenFiles w fs).windows := by
  have hf := findWindow_of_not_mem s w hw
  have h1 : s.setGeometry w g = s := by simp only [setGeometry, hf]
  have h2 : s.setOpenFiles w fs = s := by simp only [setOpenFiles, hf]
  rw [h1, h2]
  exact ⟨rfl, rfl, hw, hw⟩

/-- C10 on a concrete session: setting the geometry or the files of the unknown
id `"w9"` leaves the two-window session as it was. -/
theorem setters_unknown_id_witness :
    "w9" ∉ twoWindows.windows ∧ twoWindows.setGeometry "w9" [1] = twoWindows ∧
      twoWindows.setOpenFiles "w9" [⟨"x.log", 5, [], "v"⟩] = twoWindows :=
  ⟨by decide, (setters_unknown_id twoWindows "w9" [1] [⟨"x.log", 5, [], "v"⟩] (by decide)).1,
    (setters_unknown_id twoWindows "w9" [1] [⟨"x.log", 5, [], "v"⟩] (by decide)).2.1⟩

/-! ## Idempotence of `add`, frame conditions of the setters, fresh windows -/

theorem windows_add_of_not_mem (s : SessionInfo) (w : QString) (h : w ∉ s.windows) :
    s.add w = { windows_ := s.windows_ ++ [Window.mk1 w] } := by
  simp [add, findWindow_of_not_mem s w h]

theorem find?_eq_none_of_not_mem (s : SessionInfo) (w : QString) (h : w ∉ s.windows) :
    s.windows_.find? (fun x => decide (x.id = w)) = none := by
  simp only [windows, List.mem_map, not_exists, not_and] at h
  simp only [List.find?_eq_none, decide_eq_true_eq]
  exact fun x hx => h x hx

theorem remove_eq_filter (s : SessionInfo) (w : QString) (hnd : s.windows.Nodup)
    (hlen : 1 < s.windows.length) :
    (s.remove w).2.windows_ = s.windows_.filter (fun x => !decide (x.id = w)) := by
  by_cases hw : w ∈ s.windows
  · rw [remove_of_mem s w hlen hw]
    exact eraseIdx_find_if s.windows_ w hnd hw
  · have h1 : s.windows_.length > 1 := by simpa [windows] using hlen
    have h2 : find_if s.windows_ w = s.windows_.length :=
      (find_if_eq_length_iff s.windows_ w).mpr hw
    have hf : s.windows_.filter (fun x => !decide (x.id = w)) = s.windows_ := by
      apply List.filter_eq_self.mpr
      intro x hx
      have : x.id ≠ w := fun e => hw (by simp only [windows, List.mem_map]; exact ⟨x, hx, e⟩)
      simpa using this
    simp [remove, h1, h2, hf]

theorem find_if_ne_of_ne (s : SessionInfo) (v w : QString) (q : Nat) (hv : v ≠ w)
    (hq : s.findWindow v = some q) : q ≠ find_if s.windows_ w := by
  obtain ⟨x, hx, hxid⟩ := findWindow_valid s v q hq
  intro e
  have hw : w ∈ s.windows := by
    apply (find_if_lt_iff s.windows_ w).mp
    rw [← e]
    by_contra hn
    rw [List.getElem?_eq_none (by omega)] at hx
    exact Option.noConfusion hx
  obtain ⟨y, hy, hyid, -⟩ := getElem?_find_if s.windows_ w hw
  rw [← e, hx] at hy
  have : x = y := Option.some.inj hy
  rw [this] at hxid
  exact hv (hxid.symm.trans hyid)

/-- C11: `add` of an id that is already present leaves the whole session
object unchanged (window order, geometry and open files of every window);
consequently `add(w)` followed by `add(w)` gives the same session as a single
`add(w)`, for every session and every `w`. -/
theorem add_idempotent (s : SessionInfo) (w : QString) :
    (w ∈ s.windows → s.add w = s) ∧ (s.add w).add w = s.add w := by
  refine ⟨add_of_mem s w, ?_⟩
  apply add_of_mem
  rw [windows_add]
  split
  · assumption
  · simp

/-- C11 on a concrete session: adding `"w1"` to the two-window session, which
already lists it, changes nothing. -/
theorem add_idempotent_witness :
    "w1" ∈ twoWindows.windows ∧ twoWindows.add "w1" = twoWindows ∧
      (twoWindows.add "w3").add "w3" = twoWindows.add "w3" :=
  ⟨by decide, (add_idempotent twoWindows "w1").1 (by decide),
    (add_idempotent twoWindows "w3").2⟩

/-- C18: for a present id `w`, `setGeometry(w, g)` leaves `windows()`, the
open files of every window (of `w` too) and the geometry of every other window
unchanged, and `setOpenFiles(w, fs)` leaves `windows()`, the geometry of every
window (of `w` too) and the open files of every other window unchanged.  In
both cases every record of `windows_` other than the one `findWindow` returns
is the same record as before. -/
theorem setters_frame (s : SessionInfo) (w : QString) (g : QByteArray)
    (fs : List OpenFile) (hw : w ∈ s.windows) :
    ((s.setGeometry w g).windows = s.windows ∧
      (∀ v, (s.setGeometry w g).openFiles v = s.openFiles v) ∧
      (∀ v, v ≠ w → (s.setGeometry w g).geometry v = s.geometry v) ∧
      (∀ q, q ≠ find_if s.windows_ w → (s.setGeometry w g).windows_[q]? = s.windows_[q]?)) ∧
    ((s.setOpenFiles w fs).windows = s.windows ∧
      (∀ v, (s.setOpenFiles w fs).geometry v = s.geometry v) ∧
      (∀ v, v ≠ w → (s.setOpenFiles w fs).openFiles v = s.openFiles v) ∧
      (∀ q, q ≠ find_if s.windows_ w → (s.setOpenFiles w fs).windows_[q]? = s.windows_[q]?)) := by
  have hf := findWindow_of_mem s w hw
  have hG : s.setGeometry w g = SessionInfo.mk
      (assignAt (fun x => { x with geometry := g }) (find_if s.windows_ w) s.windows_) := by
    simp only [setGeometry, hf]
  have hF : s.setOpenFiles w fs = SessionInfo.mk
      (assignAt (fun x => { x with openFiles := fs }) (find_if s.windows_ w) s.windows_) := by
    simp only [setOpenFiles, hf]
  refine ⟨⟨windows_setGeometry s w g, ?_, ?_, ?_⟩, ⟨windows_setOpenFiles s w fs, ?_, ?_, ?_⟩⟩
  · intro v
    rw [hG]
    simp only [openFiles]
    rw [findWindow_assignAt s (fun x => { x with geometry := g }) (fun _ => rfl)]
    cases hq : s.findWindow v with
    | none => rfl
    | some q =>
      by_cases e : q = find_if s.windows_ w
      · subst e
        simp only [getElem?_assignAt_self]
        cases s.windows_[find_if s.windows_ w]? <;> rfl
      · simp only [getElem?_assignAt_ne _ _ _ _ e]
  · intro v hv
    rw [hG]
    simp only [geometry]
    rw [findWindow_assignAt s (fun x => { x with geometry := g }) (fun _ => rfl)]
    cases hq : s.findWindow v with
    | none => rfl
    | some q => simp only [getElem?_assignAt_ne _ _ _ _ (find_if_ne_of_ne s v w q hv hq)]
  · intro q hq
    rw [hG]
    exact getElem?_assignAt_ne _ _ _ _ hq
  · intro v
    rw [hF]
    simp only [geometry]
    rw [findWindow_assignAt s (fun x => { x with openFiles := fs }) (fun _ => rfl)]
    cases hq : s.findWindow v with
    | none => rfl
    | some q =>
      by_cases e : q = find_if s.windows_ w
      · subst e
        simp only [getElem?_assignAt_self]
        cases s.windows_[find_if s.windows_ w]? <;> rfl
      · simp only [getElem?_assignAt_ne _ _ _ _ e]
  · intro v hv
    rw [hF]
    simp only [openFiles]
    rw [findWindow_assignAt s (fun x => { x with openFiles := fs }) (fun _ => rfl)]
    cases hq : s.findWindow v with
    | none => rfl
    | some q => simp only [getElem?_assignAt_ne _ _ _ _ (find_if_ne_of_ne s v w q hv hq)]
  · intro q hq
    rw [hF]
    exact getElem?_assignAt_ne _ _ _ _ hq

/-- C18 on a concrete session: setting the geometry of `"w2"` keeps the open
file of `"w2"` and the geometry of `"w1"`; setting the files of `"w1"` keeps
its geometry and the file of `"w2"`. -/
theorem setters_frame_witness :
    "w2" ∈ twoWindows.windows ∧ "w1" ∈ twoWindows.windows ∧
      (twoWindows.setGeometry "w2" [9]).openFiles "w2" = twoWindows.openFiles "w2" ∧
      (twoWindows.setGeometry "w2" [9]).geometry "w1" = twoWindows.geometry "w1" ∧
      (twoWindows.setOpenFiles "w1" []).geometry "w1" = twoWindows.geometry "w1" ∧
      (twoWindows.setOpenFiles "w1" []).openFiles "w2" = twoWindows.openFiles "w2" :=
  ⟨by decide, by decide,
    (setters_frame twoWindows "w2" [9] [] (by decide)).1.2.1 "w2",
    (setters_frame twoWindows "w2" [9] [] (by decide)).1.2.2.1 "w1" (by decide),
    (setters_frame twoWindows "w1" [9] [] (by decide)).2.2.1 "w1",
    (setters_frame twoWindows "w1" [9] [] (by decide)).2.2.2.1 "w2" (by decide)⟩

theorem fresh_window_empty (s : SessionInfo) (w : QString) (hw : w ∉ s.windows) :
    (s.add w).geometry w = [] ∧ (s.add w).openFiles w = [] ∧
      (s.add w).windows.getLast? = some w := by
  have hn := find?_eq_none_of_not_mem s w hw
  refine ⟨?_, ?_, ?_⟩
  · rw [geometry_eq_find?, windows_add_of_not_mem s w hw]
    simp [List.find?_append, hn, Window.mk1]
  · rw [openFiles_eq_find?, windows_add_of_not_mem s w hw]
    simp [List.find?_append, hn, Window.mk1]
  · rw [windows_add, if_neg hw, List.getLast?_concat]

/-- C19: a window created by `add(w)` for an absent id has the empty blob as
geometry and no open files.  In a session (a state reached through the public
interface) with more than one window, `remove(w)` followed by `add(w)` leaves
`w` with empty geometry and no open files, whatever it held before, and `w` is
the last entry of `windows()`. -/
theorem add_creates_empty_window (s : SessionInfo) (w : QString) :
    (w ∉ s.windows → (s.add w).geometry w = [] ∧ (s.add w).openFiles w = []) ∧
      (Reachable s → 1 < s.windows.length →
        ((s.remove w).2.add w).geometry w = [] ∧
        ((s.remove w).2.add w).openFiles w = [] ∧
        ((s.remove w).2.add w).windows.getLast? = some w) := by
  constructor
  · intro hw
    exact ⟨(fresh_window_empty s w hw).1, (fresh_window_empty s w hw).2.1⟩
  · intro hr hlen
    have hnd := nodup_windows_of_reachable s hr
    have hgone : w ∉ (s.remove w).2.windows := by
      simp only [windows, remove_eq_filter s w hnd hlen, List.mem_map, List.mem_filter]
      rintro ⟨x, ⟨-, hx⟩, hid⟩
      simp [hid] at hx
    exact fresh_window_empty _ w hgone

/-- C19 on a concrete session: `"w1"` holds a three-byte geometry in the
two-window session; after `remove("w1")` and `add("w1")` its geometry is empty
and it is listed after `"w2"`. -/
theorem add_creates_empty_window_witness :
    twoWindows.geometry "w1" = [1, 2, 3] ∧
      ((twoWindows.remove "w1").2.add "w1").geometry "w1" = [] ∧
      ((twoWindows.remove "w1").2.add "w1").windows.getLast? = some "w1" ∧
      "w3" ∉ twoWindows.windows ∧ (twoWindows.add "w3").geometry "w3" = [] :=
  ⟨by decide,
    ((add_creates_empty_window twoWindows "w1").2 ⟨_, rfl⟩ (by decide)).1,
    ((add_creates_empty_window twoWindows "w1").2 ⟨_, rfl⟩ (by decide)).2.2,
    by decide,
    ((add_creates_empty_window twoWindows "w3").1 (by decide)).1⟩

/-! ## `windows()` lists the surviving ids in creation order -/

theorem run_concat (cs : List Call) (c : Call) (s : SessionInfo) :
    s.run (cs ++ [c]) = (s.run cs).step c := by
  rw [run_append]
  rfl

theorem stateBefore_concat (cs : List Call) (c : Call) (i : Nat) (h : i ≤ cs.length) :
    stateBefore (cs ++ [c]) i = stateBefore cs i := by
  simp only [stateBefore, List.take_append_of_le_length h]

theorem stateBefore_length (cs : List Call) : stateBefore cs cs.length = run empty cs := by
  simp only [stateBefore, List.take_length]

theorem createsAt_concat (cs : List Call) (c : Call) (w : QString) (i : Nat)
    (h : i < cs.length) : createsAt (cs ++ [c]) i w = createsAt cs i w := by
  simp only [createsAt, stateBefore_concat cs c i (Nat.le_of_lt h),
    List.getElem?_append_left h]

theorem removesAt_concat (cs : List Call) (c : Call) (w : QString) (i : Nat)
    (h : i < cs.length) : removesAt (cs ++ [c]) i w = removesAt cs i w := by
  simp only [removesAt, stateBefore_concat cs c i (Nat.le_of_lt h),
    List.getElem?_append_left h]

theorem createsAt_last (cs : List Call) (c : Call) (w : QString) :
    createsAt (cs ++ [c]) cs.length w = true ↔ c = Call.add w ∧ w ∉ (run empty cs).windows := by
  simp only [createsAt, stateBefore_concat cs c cs.length (Nat.le_refl _), stateBefore_length,
    List.getElem?_concat_length, Option.some.injEq, Bool.and_eq_true, decide_eq_true_eq]

theorem removesAt_last (cs : List Call) (c : Call) (w : QString) :
    removesAt (cs ++ [c]) cs.length w = true ↔
      c = Call.remove w ∧ w ∈ (run empty cs).windows ∧ 1 < (run empty cs).windows.length := by
  simp only [removesAt, stateBefore_concat cs c cs.length (Nat.le_refl _), stateBefore_length,
    List.getElem?_concat_length, Option.some.injEq, Bool.and_eq_true, decide_eq_true_eq,
    and_assoc]

theorem lastCreationBefore_lt (cs : List Call) (w : QString) (n i : Nat)
    (h : lastCreationBefore cs w n = some i) : i < n ∧ createsAt cs i w = true := by
  induction n with
  | zero => simp [lastCreationBefore] at h
  | succ n ih =>
    by_cases hc : createsAt cs n w = true
    · simp only [lastCreationBefore, hc, if_true, Option.some.injEq] at h
      subst h
      exact ⟨Nat.lt_succ_self _, hc⟩
    · simp only [lastCreationBefore, hc, Bool.false_eq_true, if_false] at h
      exact ⟨Nat.lt_succ_of_lt (ih h).1, (ih h).2⟩

theorem lastCreationBefore_concat (cs : List Call) (c : Call) (w : QString) (n : Nat)
    (h : n ≤ cs.length) :
    lastCreationBefore (cs ++ [c]) w n = lastCreationBefore cs w n := by
  induction n with
  | zero => rfl
  | succ n ih =>
    simp only [lastCreationBefore, createsAt_concat cs c w n h, ih (Nat.le_of_succ_le h)]

theorem lastCreation_concat (cs : List Call) (c : Call) (w : QString) :
    lastCreation (cs ++ [c]) w =
      if createsAt (cs ++ [c]) cs.length w then some cs.length else lastCreation cs w := by
  simp only [lastCreation, List.length_append, List.length_singleton, lastCreationBefore,
    lastCreationBefore_concat cs c w cs.length (Nat.le_refl _)]

theorem survives_iff (cs : List Call) (w : QString) :
    survives cs w = true ↔
      ∃ i, lastCreation cs w = some i ∧
        ∀ j, i < j → j < cs.length → removesAt cs j w = false := by
  unfold survives
  cases h : lastCreation cs w with
  | none => simp
  | some i =>
    simp only [List.all_eq_true, List.mem_range, Bool.not_eq_true', Bool.and_eq_false_imp,
      decide_eq_true_eq, Option.some.injEq, exists_eq_left']
    constructor
    · intro hall j hij hj
      exact hall j hj hij
    · intro hall j hj hij
      exact hall j hij hj

theorem remove_of_length_le (s : SessionInfo) (w : QString) (h : ¬ 1 < s.windows.length) :
    s.remove w = (false, s) := by
  have h1 : ¬ s.windows_.length > 1 := by simpa [windows] using h
  simp [remove, h1]

theorem mem_windows_step (s : SessionInfo) (c : Call) (v : QString) (hnd : s.windows.Nodup) :
    v ∈ (s.step c).windows ↔
      (c = Call.add v ∧ v ∉ s.windows) ∨
        (v ∈ s.windows ∧ ¬ (c = Call.remove v ∧ 1 < s.windows.length)) := by
  cases c with
  | add w =>
    simp only [step, windows_add, Call.add.injEq, reduceCtorEq, false_and, not_false_eq_true,
      and_true]
    by_cases hw : w ∈ s.windows
    · rw [if_pos hw]
      constructor
      · exact fun h => Or.inr h
      · rintro (⟨rfl, h⟩ | h)
        · exact absurd hw h
        · exact h
    · rw [if_neg hw]
      simp only [List.mem_append, List.mem_singleton]
      constructor
      · rintro (h | rfl)
        · exact Or.inr h
        · exact Or.inl ⟨rfl, hw⟩
      · rintro (⟨rfl, -⟩ | h)
        · exact Or.inr rfl
        · exact Or.inl h
  | remove w =>
    simp only [step, reduceCtorEq, false_and, false_or, Call.remove.injEq]
    by_cases hlen : 1 < s.windows.length
    · simp only [windows, remove_eq_filter s w hnd hlen, List.mem_map, List.mem_filter,
        Bool.not_eq_true', decide_eq_false_iff_not]
      constructor
      · rintro ⟨x, ⟨hx, hne⟩, rfl⟩
        exact ⟨⟨x, hx, rfl⟩, fun h => hne h.1.symm⟩
      · rintro ⟨⟨x, hx, rfl⟩, hne⟩
        exact ⟨x, ⟨hx, fun e => hne ⟨e.symm, by simpa [windows] using hlen⟩⟩, rfl⟩
    · rw [remove_of_length_le s w hlen]
      constructor
      · exact fun h => ⟨h, fun h2 => hlen h2.2⟩
      · exact fun h => h.1
  | setGeometry w g =>
    simp only [step, windows_setGeometry, reduceCtorEq, false_and, false_or,
      not_false_eq_true, and_true]
  | setOpenFiles w fs =>
    simp only [step, windows_setOpenFiles, reduceCtorEq, false_and, false_or,
      not_false_eq_true, and_true]

theorem windows_step_cases (s : SessionInfo) (c : Call) :
    List.Sublist (s.step c).windows s.windows ∨
      ∃ w, c = Call.add w ∧ w ∉ s.windows ∧ (s.step c).windows = s.windows ++ [w] := by
  cases c with
  | add w =>
    by_cases hw : w ∈ s.windows
    · left
      simp only [step, windows_add, if_pos hw]
      exact List.Sublist.refl _
    · right
      exact ⟨w, rfl, hw, by simp only [step, windows_add, if_neg hw]⟩
  | remove w => exact Or.inl (windows_remove_sublist s w)
  | setGeometry w g =>
    left
    simp only [step, windows_setGeometry]
    exact List.Sublist.refl _
  | setOpenFiles w fs =>
    left
    simp only [step, windows_setOpenFiles]
    exact List.Sublist.refl _

theorem lastCreation_concat_of_mem (cs : List Call) (c : Call) (a : QString)
    (ha : a ∈ (run empty cs).windows) :
    lastCreation (cs ++ [c]) a = lastCreation cs a := by
  have hc : ¬ createsAt (cs ++ [c]) cs.length a = true := fun h =>
    ((createsAt_last cs c a).mp h).2 ha
  rw [lastCreation_concat, if_neg hc]

theorem mem_windows_iff_survives (cs : List Call) (v : QString) :
    v ∈ (run empty cs).windows ↔ survives cs v = true := by
  induction cs using List.reverseRecOn with
  | nil => simp [run, empty, windows, survives, lastCreation, lastCreationBefore]
  | append_singleton cs c ih =>
    have hnd : (run empty cs).windows.Nodup :=
      nodup_windows_run cs empty (by simp [empty, windows])
    rw [survives_iff] at ih
    rw [run_concat, mem_windows_step _ c v hnd, survives_iff, lastCreation_concat]
    by_cases hc : createsAt (cs ++ [c]) cs.length v = true
    · rw [if_pos hc]
      constructor
      · intro _
        refine ⟨cs.length, rfl, fun j h1 h2 => ?_⟩
        simp only [List.length_append, List.length_singleton] at h2
        omega
      · intro _
        exact Or.inl ((createsAt_last cs c v).mp hc)
    · rw [if_neg hc]
      constructor
      · rintro (h | ⟨hv, hnr⟩)
        · exact absurd ((createsAt_last cs c v).mpr h) hc
        · obtain ⟨i, hi, hall⟩ := ih.mp hv
          refine ⟨i, hi, fun j h1 h2 => ?_⟩
          simp only [List.length_append, List.length_singleton] at h2
          by_cases hj : j < cs.length
          · rw [removesAt_concat cs c v j hj]
            exact hall j h1 hj
          · have hje : j = cs.length := by omega
            subst hje
            cases hr : removesAt (cs ++ [c]) cs.length v with
            | false => rfl
            | true =>
              have h3 := (removesAt_last cs c v).mp hr
              exact absurd ⟨h3.1, h3.2.2⟩ hnr
      · rintro ⟨i, hi, hall⟩
        have hlt : i < cs.length := (lastCreationBefore_lt cs v cs.length i hi).1
        have hv : v ∈ (run empty cs).windows := by
          refine ih.mpr ⟨i, hi, fun j h1 h2 => ?_⟩
          rw [← removesAt_concat cs c v j h2]
          exact hall j h1 (by simp only [List.length_append, List.length_singleton]; omega)
        refine Or.inr ⟨hv, fun hrem => ?_⟩
        have h3 : removesAt (cs ++ [c]) cs.length v = true :=
          (removesAt_last cs c v).mpr ⟨hrem.1, hv, hrem.2⟩
        have h4 := hall cs.length hlt (by simp)
        rw [h3] at h4
        exact Bool.noConfusion h4

theorem windows_sorted_by_creation (cs : List Call) :
    (run empty cs).windows.Pairwise
      (fun a b => ∃ i j, lastCreation cs a = some i ∧ lastCreation cs b = some j ∧ i < j) := by
  induction cs using List.reverseRecOn with
  | nil => simp [run, empty, windows]
  | append_singleton cs c ih =>
    have hold : ∀ a ∈ (run empty cs).windows, ∃ i, lastCreation (cs ++ [c]) a = some i ∧
        i < cs.length := by
      intro a ha
      obtain ⟨i, hi, -⟩ := (survives_iff cs a).mp ((mem_windows_iff_survives cs a).mp ha)
      exact ⟨i, by rw [lastCreation_concat_of_mem cs c a ha, hi],
        (lastCreationBefore_lt cs a cs.length i hi).1⟩
    have hpw : (run empty cs).windows.Pairwise
        (fun a b => ∃ i j, lastCreation (cs ++ [c]) a = some i ∧
          lastCreation (cs ++ [c]) b = some j ∧ i < j) := by
      refine List.Pairwise.imp_of_mem ?_ ih
      intro a b ha hb hab
      rw [lastCreation_concat_of_mem cs c a ha, lastCreation_concat_of_mem cs c b hb]
      exact hab
    rw [run_concat]
    rcases windows_step_cases (run empty cs) c with hsub | ⟨w, hc, hw, heq⟩
    · exact hpw.sublist hsub
    · rw [heq, List.pairwise_append]
      refine ⟨hpw, List.pairwise_singleton _ _, fun a ha b hb => ?_⟩
      rw [List.mem_singleton] at hb
      subst hb
      obtain ⟨i, hi, hlt⟩ := hold a ha
      refine ⟨i, cs.length, hi, ?_, hlt⟩
      rw [lastCreation_concat, if_pos ((createsAt_last cs c b).mpr ⟨hc, hw⟩)]

/-- C12: `windows()` lists the ids in creation order.  An `add(w)` of an absent
id appends `w` at the end of `windows()`; `remove` leaves a sublist of
`windows()` (the remaining ids in their order) and the setters leave it
unchanged.  After any sequence of calls from the empty session, the ids in
`windows()` are exactly the surviving ids, and they stand in increasing order
of the time of their most recent creating `add`. -/
theorem windows_creation_order (s : SessionInfo) (w : QString) (g : QByteArray)
    (fs : List OpenFile) (cs : List Call) :
    (w ∉ s.windows → (s.add w).windows = s.windows ++ [w]) ∧
      List.Sublist (s.remove w).2.windows s.windows ∧
      (s.setGeometry w g).windows = s.windows ∧
      (s.setOpenFiles w fs).windows = s.windows ∧
      (∀ v, v ∈ (run empty cs).windows ↔ survives cs v = true) ∧
      (run empty cs).windows.Pairwise
        (fun a b => ∃ i j, lastCreation cs a = some i ∧ lastCreation cs b = some j ∧ i < j) := by
  refine ⟨fun hw => ?_, windows_remove_sublist s w, windows_setGeometry s w g,
    windows_setOpenFiles s w fs, mem_windows_iff_survives cs, windows_sorted_by_creation cs⟩
  rw [windows_add, if_neg hw]

/-- C12 on concrete data: `"w3"` is appended to the two-window session; after
adding `"a"` and `"b"`, removing `"a"` and adding it again, `windows()` is
`["b", "a"]`, with `"b"` created by call 1 and `"a"` last created by call 3. -/
theorem windows_creation_order_witness :
    "w3" ∉ twoWindows.windows ∧ (twoWindows.add "w3").windows = ["w1", "w2", "w3"] ∧
      (run empty [Call.add "a", Call.add "b", Call.remove "a", Call.add "a"]).windows
        = ["b", "a"] ∧
      lastCreation [Call.add "a", Call.add "b", Call.remove "a", Call.add "a"] "b" = some 1 ∧
      lastCreation [Call.add "a", Call.add "b", Call.remove "a", Call.add "a"] "a" = some 3 :=
  ⟨by decide,
    ((windows_creation_order twoWindows "w3" [] [] []).1 (by decide)).trans (by decide),
    by decide, by decide, by decide⟩

/-! ## Storage round trip -/

theorem windowList_foldl_setRecord (ws : List Window) (q : QSettings) :
    (ws.foldl (fun q x => q.setRecord x.id (x.geometry, x.openFiles)) q).windowList
      = q.windowList := by
  induction ws generalizing q with
  | nil => rfl
  | cons x rest ih =>
    rw [List.foldl_cons, ih]
    rfl

theorem records_foldl_of_not_mem (ws : List Window) (q : QSettings) (k : QString)
    (h : k ∉ ws.map (fun x => x.id)) :
    (ws.foldl (fun q x => q.setRecord x.id (x.geometry, x.openFiles)) q).records k
      = q.records k := by
  induction ws generalizing q with
  | nil => rfl
  | cons x rest ih =>
    have hx : ¬ k = x.id := fun e => h (by simp [e])
    have hr : k ∉ rest.map (fun x => x.id) := fun e => h (by simp at e ⊢; exact Or.inr e)
    rw [List.foldl_cons, ih _ hr]
    simp only [QSettings.setRecord, hx, if_false]

theorem records_foldl_of_mem (ws : List Window) (q : QSettings) (x : Window)
    (hnd : (ws.map (fun x => x.id)).Nodup) (hx : x ∈ ws) :
    (ws.foldl (fun q x => q.setRecord x.id (x.geometry, x.openFiles)) q).records x.id
      = some (x.geometry, x.openFiles) := by
  induction ws generalizing q with
  | nil => simp at hx
  | cons y rest ih =>
    have hnd2 := List.nodup_cons.mp hnd
    rw [List.foldl_cons]
    rcases List.mem_cons.mp hx with rfl | hmem
    · rw [records_foldl_of_not_mem rest _ x.id hnd2.1]
      simp only [QSettings.setRecord, if_true]
    · exact ih _ hnd2.2 hmem

theorem readWindows_of_records (q : QSettings) (ws : List Window)
    (h : ∀ x ∈ ws, q.records x.id = some (x.geometry, x.openFiles)) :
    readWindows q (ws.map (fun x => x.id)) = some ws := by
  induction ws with
  | nil => rfl
  | cons x rest ih =>
    have hrest := ih (fun y hy => h y (by simp [hy]))
    simp only [List.map_cons, readWindows, h x (by simp), hrest]

theorem retrieve_save (s : SessionInfo) (settings : QSettings) (t : SessionInfo)
    (hnd : s.windows.Nodup) : retrieveFromStorage t (saveToStorage s settings) = s := by
  have hl : (saveToStorage s settings).windowList = some s.windows := by
    simp only [saveToStorage, windowList_foldl_setRecord]
  have hr : readWindows (saveToStorage s settings) s.windows = some s.windows_ :=
    readWindows_of_records _ s.windows_
      (fun x hx => records_foldl_of_mem s.windows_ _ x hnd hx)
  simp only [retrieveFromStorage, hl, hr]

/-- C16: storage round trip.  For every session (a state reached through the
public interface) and whatever the store held before, `saveToStorage` followed
by `retrieveFromStorage` into a fresh, empty `SessionInfo` gives back the same
session object: the same window ids in the same order and, for each window,
the same geometry blob and the same open-file list, empty ones included. -/
theorem storage_round_trip (s : SessionInfo) (settings : QSettings) (hr : Reachable s) :
    retrieveFromStorage empty (saveToStorage s settings) = s ∧
      (retrieveFromStorage empty (saveToStorage s settings)).windows = s.windows ∧
      (∀ v, (retrieveFromStorage empty (saveToStorage s settings)).geometry v = s.geometry v) ∧
      (∀ v, (retrieveFromStorage empty (saveToStorage s settings)).openFiles v
        = s.openFiles v) := by
  rw [retrieve_save s settings empty (nodup_windows_of_reachable s hr)]
  exact ⟨rfl, rfl, fun _ => rfl, fun _ => rfl⟩

/-- C16 on a concrete session: the two-window session, whose window `"w2"` has
an empty geometry and whose window `"w1"` has no open file, is read back
unchanged from a store that held nothing. -/
theorem storage_round_trip_witness :
    Reachable twoWindows ∧ twoWindows.geometry "w2" = [] ∧ twoWindows.openFiles "w1" = [] ∧
      retrieveFromStorage empty (saveToStorage twoWindows QSettings.blank) = twoWindows :=
  ⟨⟨_, rfl⟩, by decide, by decide, (storage_round_trip twoWindows QSettings.blank ⟨_, rfl⟩).1⟩

end SessionInfo

/-! # The entry point: restore or create, forwarding, maintenance, file loading -/

namespace Klogg

theorem restoreCondition_iff (config : Configuration) (parameters : CliParameters) :
    restoreCondition config parameters = true ↔
      (parameters.load_session = true ∨
        (parameters.filenames = [] ∧ parameters.new_session = false ∧
          config.loadLastSession = true)) := by
  simp [restoreCondition, List.isEmpty_iff, and_assoc]

theorem main_primary (config : Configuration) (parameters : CliParameters) (app : KloggApp)
    (hp : (!parameters.multi_instance && app.isSecondary) = false) :
    main config parameters app =
      [Action.setApplicationAttributes config.enableQtHighDpi config.scaleFactorRounding,
       Action.initLogger parameters.log_level parameters.log_to_file,
       Action.initCrashHandler,
       Action.enableLogging config.enableLogging config.loggingLevel]
        ++ primaryPath config parameters ++ [Action.exec] := by
  simp only [main, hp, Bool.false_eq_true, if_false]

theorem primaryPath_restore (config : Configuration) (parameters : CliParameters)
    (h : restoreCondition config parameters = true) :
    primaryPath config parameters =
      [Action.applyStyle config.style, Action.reloadSession]
        ++ (if parameters.window_width > 0 && parameters.window_height > 0 then
              [Action.resize MainWindow.reloaded parameters.window_width
                parameters.window_height]
            else [])
        ++ parameters.filenames.map
            (fun filename =>
              Action.loadInitialFile MainWindow.reloaded filename parameters.follow_file)
        ++ [Action.startBackgroundTasks] := by
  simp [primaryPath, h]

theorem primaryPath_fresh (config : Configuration) (parameters : CliParameters)
    (h : restoreCondition config parameters = false) :
    primaryPath config parameters =
      [Action.applyStyle config.style, Action.newWindow,
       Action.reloadGeometry MainWindow.fresh, Action.showWindow MainWindow.fresh]
        ++ (if parameters.window_width > 0 && parameters.window_height > 0 then
              [Action.resize MainWindow.fresh parameters.window_width parameters.window_height]
            else [])
        ++ parameters.filenames.map
            (fun filename =>
              Action.loadInitialFile MainWindow.fresh filename parameters.follow_file)
        ++ [Action.clearInactiveSessions, Action.startBackgroundTasks] := by
  simp [primaryPath, h]

theorem mem_main_of_restore (config : Configuration) (parameters : CliParameters)
    (app : KloggApp) (hp : (!parameters.multi_instance && app.isSecondary) = false)
    (h : restoreCondition config parameters = true) :
    Action.reloadSession ∈ main config parameters app ∧
      Action.newWindow ∉ main config parameters app ∧
      Action.clearInactiveSessions ∉ main config parameters app := by
  rw [main_primary config parameters app hp, primaryPath_restore config parameters h]
  refine ⟨by simp, ?_, ?_⟩ <;> split <;> simp

theorem mem_main_of_fresh (config : Configuration) (parameters : CliParameters)
    (app : KloggApp) (hp : (!parameters.multi_instance && app.isSecondary) = false)
    (h : restoreCondition config parameters = false) :
    Action.newWindow ∈ main config parameters app ∧
      Action.reloadSession ∉ main config parameters app ∧
      Action.clearInactiveSessions ∈ main config parameters app := by
  rw [main_primary config parameters app hp, primaryPath_fresh config parameters h]
  refine ⟨by simp, ?_, by simp⟩
  split <;> simp

theorem main_primary_decomp (config : Configuration) (parameters : CliParameters)
    (app : KloggApp) (hp : (!parameters.multi_instance && app.isSecondary) = false) :
    ∃ pre, main config parameters app =
        pre ++ parameters.filenames.map
            (fun filename => Action.loadInitialFile
              (if restoreCondition config parameters then MainWindow.reloaded
                else MainWindow.fresh) filename parameters.follow_file)
          ++ (if restoreCondition config parameters then [] else [Action.clearInactiveSessions])
          ++ [Action.startBackgroundTasks, Action.exec] ∧
      (∀ a ∈ pre, a.isLoadInitialFile = false ∧ a ≠ Action.clearInactiveSessions ∧
        a ≠ Action.startBackgroundTasks) ∧
      (if restoreCondition config parameters then Action.reloadSession ∈ pre
        else Action.newWindow ∈ pre) := by
  rw [main_primary config parameters app hp]
  cases h : restoreCondition config parameters with
  | true =>
    rw [primaryPath_restore config parameters h]
    refine ⟨[Action.setApplicationAttributes config.enableQtHighDpi config.scaleFactorRounding,
       Action.initLogger parameters.log_level parameters.log_to_file,
       Action.initCrashHandler,
       Action.enableLogging config.enableLogging config.loggingLevel,
       Action.applyStyle config.style, Action.reloadSession]
        ++ (if parameters.window_width > 0 && parameters.window_height > 0 then
              [Action.resize MainWindow.reloaded parameters.window_width
                parameters.window_height]
            else []), by simp, ?_, by simp⟩
    intro a ha
    split at ha
    · simp at ha
      rcases ha with rfl | rfl | rfl | rfl | rfl | rfl | rfl <;>
        simp [Action.isLoadInitialFile]
    · simp at ha
      rcases ha with rfl | rfl | rfl | rfl | rfl | rfl <;> simp [Action.isLoadInitialFile]
  | false =>
    rw [primaryPath_fresh config parameters h]
    refine ⟨[Action.setApplicationAttributes config.enableQtHighDpi config.scaleFactorRounding,
       Action.initLogger parameters.log_level parameters.log_to_file,
       Action.initCrashHandler,
       Action.enableLogging config.enableLogging config.loggingLevel,
       Action.applyStyle config.style, Action.newWindow,
       Action.reloadGeometry MainWindow.fresh, Action.showWindow MainWindow.fresh]
        ++ (if parameters.window_width > 0 && parameters.window_height > 0 then
              [Action.resize MainWindow.fresh parameters.window_width parameters.window_height]
            else []), by simp, ?_, by simp⟩
    intro a ha
    split at ha
    · simp at ha
      rcases ha with rfl | rfl | rfl | rfl | rfl | rfl | rfl | rfl | rfl <;>
        simp [Action.isLoadInitialFile]
    · simp at ha
      rcases ha with rfl | rfl | rfl | rfl | rfl | rfl | rfl | rfl <;>
        simp [Action.isLoadInitialFile]

/-- C13, as stated, fails: with no file name, auto-restore enabled and the
new-session flag set, the stated condition holds but `main` calls `newWindow`
and not `reloadSession`. -/
theorem restore_condition_counterexample :
    (!newSessionParameters.multi_instance && primaryApp.isSecondary) = false ∧
      (newSessionParameters.load_session = true ∨
        (newSessionParameters.filenames = [] ∧ autoRestoreConfig.loadLastSession = true)) ∧
      Action.reloadSession ∉ main autoRestoreConfig newSessionParameters primaryApp ∧
      Action.newWindow ∈ main autoRestoreConfig newSessionParameters primaryApp ∧
      ¬ (Action.reloadSession ∈ main autoRestoreConfig newSessionParameters primaryApp ↔
          (newSessionParameters.load_session = true ∨
            (newSessionParameters.filenames = [] ∧
              autoRestoreConfig.loadLastSession = true))) := by
  decide

/-- C13, amended: on the primary path of `main`, the prior session is restored
(`reloadSession` is called and `newWindow` is not) exactly when the
load-session flag is set, or no file name is given, the new-session flag is
not set and `loadLastSession` is enabled; in every other case a fresh window
is created (`newWindow` is called and `reloadSession` is not). -/
theorem restore_or_create (config : Configuration) (parameters : CliParameters)
    (app : KloggApp) (hp : (!parameters.multi_instance && app.isSecondary) = false) :
    ((Action.reloadSession ∈ main config parameters app ∧
        Action.newWindow ∉ main config parameters app) ↔
      (parameters.load_session = true ∨
        (parameters.filenames = [] ∧ parameters.new_session = false ∧
          config.loadLastSession = true))) ∧
    ((Action.newWindow ∈ main config parameters app ∧
        Action.reloadSession ∉ main config parameters app) ↔
      ¬ (parameters.load_session = true ∨
        (parameters.filenames = [] ∧ parameters.new_session = false ∧
          config.loadLastSession = true))) := by
  rw [← restoreCondition_iff]
  cases h : restoreCondition config parameters with
  | true =>
    have hm := mem_main_of_restore config parameters app hp h
    exact ⟨⟨fun _ => rfl, fun _ => ⟨hm.1, hm.2.1⟩⟩,
      ⟨fun hn => absurd hm.1 hn.2, fun hn => absurd rfl hn⟩⟩
  | false =>
    have hm := mem_main_of_fresh config parameters app hp h
    exact ⟨⟨fun hn => absurd hm.1 hn.2, fun hn => Bool.noConfusion hn⟩,
      ⟨fun _ => Bool.noConfusion, fun _ => ⟨hm.1, hm.2.1⟩⟩⟩

/-- C13, amended, on concrete command lines: with auto-restore enabled the
plain command line restores the session and the one asking for a new session
does not. -/
theorem restore_or_create_witness :
    (!plainParameters.multi_instance && primaryApp.isSecondary) = false ∧
      (Action.reloadSession ∈ main autoRestoreConfig plainParameters primaryApp ∧
        Action.newWindow ∉ main autoRestoreConfig plainParameters primaryApp) ∧
      (Action.newWindow ∈ main autoRestoreConfig newSessionParameters primaryApp ∧
        Action.reloadSession ∉ main autoRestoreConfig newSessionParameters primaryApp) :=
  ⟨by decide,
    (restore_or_create autoRestoreConfig plainParameters primaryApp (by decide)).1.mpr
      (by decide),
    (restore_or_create autoRestoreConfig newSessionParameters primaryApp (by decide)).2.mpr
      (by decide)⟩

/-- C14, as stated, fails: when the command line allows several instances,
`main` does not forward the file names although `isSecondary()` is true, and
it takes the primary path. -/
theorem secondary_forwards_counterexample :
    secondaryApp.isSecondary = true ∧
      Action.sendFilesToPrimaryInstance multiInstanceParameters.filenames ∉
        main autoRestoreConfig multiInstanceParameters secondaryApp ∧
      Action.newWindow ∈ main autoRestoreConfig multiInstanceParameters secondaryApp ∧
      Action.loadInitialFile MainWindow.fresh "a.log" false ∈
        main autoRestoreConfig multiInstanceParameters secondaryApp ∧
      Action.clearInactiveSessions ∈
        main autoRestoreConfig multiInstanceParameters secondaryApp ∧
      Action.startBackgroundTasks ∈
        main autoRestoreConfig multiInstanceParameters secondaryApp := by
  decide

/-- C14, amended: whenever the multi-instance flag is not set and
`isSecondary()` is true, `main` forwards `parameters.filenames` to the primary
instance with `sendFilesToPrimaryInstance` and makes none of the calls of the
primary path: after the set-up calls it only sends the files and calls
`exec`. -/
theorem secondary_forwards (config : Configuration) (parameters : CliParameters)
    (app : KloggApp) (hm : parameters.multi_instance = false)
    (hs : app.isSecondary = true) :
    main config parameters app =
        [Action.setApplicationAttributes config.enableQtHighDpi config.scaleFactorRounding,
         Action.initLogger parameters.log_level parameters.log_to_file,
         Action.initCrashHandler,
         Action.enableLogging config.enableLogging config.loggingLevel,
         Action.sendFilesToPrimaryInstance parameters.filenames,
         Action.exec] ∧
      Action.sendFilesToPrimaryInstance parameters.filenames ∈ main config parameters app ∧
      ∀ a ∈ main config parameters app, a.isPrimaryPathAction = false := by
  have h : main config parameters app =
      [Action.setApplicationAttributes config.enableQtHighDpi config.scaleFactorRounding,
       Action.initLogger parameters.log_level parameters.log_to_file,
       Action.initCrashHandler,
       Action.enableLogging config.enableLogging config.loggingLevel,
       Action.sendFilesToPrimaryInstance parameters.filenames,
       Action.exec] := by
    simp [main, hm, hs]
  rw [h]
  refine ⟨rfl, by simp, ?_⟩
  intro a ha
  simp at ha
  rcases ha with rfl | rfl | rfl | rfl | rfl | rfl <;> rfl

/-- C14, amended, on a concrete launch: a secondary instance started with two
file names and without the multi-instance flag sends them and loads
nothing. -/
theorem secondary_forwards_witness :
    twoFilesParameters.multi_instance = false ∧ secondaryApp.isSecondary = true ∧
      Action.sendFilesToPrimaryInstance ["a.log", "b.log"] ∈
        main autoRestoreConfig twoFilesParameters secondaryApp ∧
      ∀ a ∈ main autoRestoreConfig twoFilesParameters secondaryApp,
        a.isPrimaryPathAction = false :=
  ⟨by decide, by decide,
    (secondary_forwards autoRestoreConfig twoFilesParameters secondaryApp (by decide)
      (by decide)).2.1,
    (secondary_forwards autoRestoreConfig twoFilesParameters secondaryApp (by decide)
      (by decide)).2.2⟩

/-- C15: on the primary path of `main`, `clearInactiveSessions` is called if
and only if `newWindow` was, that is if and only if `reloadSession` was not;
when it is called, it comes right after the `loadInitialFile` calls of all the
file names and right before `startBackgroundTasks`, and nothing before those
calls is a `loadInitialFile`, a `clearInactiveSessions` or a
`startBackgroundTasks`. -/
theorem maintenance_iff_fresh_window (config : Configuration) (parameters : CliParameters)
    (app : KloggApp) (hp : (!parameters.multi_instance && app.isSecondary) = false) :
    (Action.clearInactiveSessions ∈ main config parameters app ↔
        Action.newWindow ∈ main config parameters app) ∧
      (Action.clearInactiveSessions ∈ main config parameters app ↔
        Action.reloadSession ∉ main config parameters app) ∧
      (Action.clearInactiveSessions ∈ main config parameters app →
        ∃ pre, main config parameters app =
            pre ++ parameters.filenames.map
                (fun filename =>
                  Action.loadInitialFile MainWindow.fresh filename parameters.follow_file)
              ++ [Action.clearInactiveSessions, Action.startBackgroundTasks, Action.exec] ∧
          ∀ a ∈ pre, a.isLoadInitialFile = false ∧ a ≠ Action.clearInactiveSessions ∧
            a ≠ Action.startBackgroundTasks) := by
  cases h : restoreCondition config parameters with
  | true =>
    have hm := mem_main_of_restore config parameters app hp h
    exact ⟨⟨fun hc => absurd hc hm.2.2, fun hn => absurd hn hm.2.1⟩,
      ⟨fun hc => absurd hc hm.2.2, fun hn => absurd hm.1 hn⟩,
      fun hc => absurd hc hm.2.2⟩
  | false =>
    have hm := mem_main_of_fresh config parameters app hp h
    refine ⟨⟨fun _ => hm.1, fun _ => hm.2.2⟩, ⟨fun _ => hm.2.1, fun _ => hm.2.2⟩, fun _ => ?_⟩
    obtain ⟨pre, hpre, hall, -⟩ := main_primary_decomp config parameters app hp
    refine ⟨pre, ?_, hall⟩
    rw [hpre]
    simp [h]

/-- C15 on concrete command lines: with two file names a fresh window is
created and maintenance runs; with the plain command line and auto-restore the
session is restored and maintenance does not run. -/
theorem maintenance_iff_fresh_window_witness :
    (!twoFilesParameters.multi_instance && primaryApp.isSecondary) = false ∧
      Action.newWindow ∈ main autoRestoreConfig twoFilesParameters primaryApp ∧
      Action.clearInactiveSessions ∈ main autoRestoreConfig twoFilesParameters primaryApp ∧
      Action.reloadSession ∈ main autoRestoreConfig plainParameters primaryApp ∧
      Action.clearInactiveSessions ∉ main autoRestoreConfig plainParameters primaryApp :=
  ⟨by decide, by decide,
    (maintenance_iff_fresh_window autoRestoreConfig twoFilesParameters primaryApp
      (by decide)).1.mpr (by decide),
    by decide,
    fun hc => (maintenance_iff_fresh_window autoRestoreConfig plainParameters primaryApp
      (by decide)).2.1.mp hc (by decide)⟩

/-- C17: on the primary path of `main`, the `loadInitialFile` calls are exactly
one call per entry of `parameters.filenames`, in the order of the list, each
on the main window (the restored one on the restore branch, the new one on the
fresh-window branch) and each with the flag `parameters.follow_file`.  They
form one block of the call sequence; the window was restored or created
before the block, and `startBackgroundTasks` is called after it and not
before. -/
theorem loadInitialFile_calls (config : Configuration) (parameters : CliParameters)
    (app : KloggApp) (hp : (!parameters.multi_instance && app.isSecondary) = false) :
    (∃ pre post, main config parameters app =
        pre ++ parameters.filenames.map
            (fun filename => Action.loadInitialFile
              (if restoreCondition config parameters then MainWindow.reloaded
                else MainWindow.fresh) filename parameters.follow_file)
          ++ post ∧
      (∀ a ∈ pre, a.isLoadInitialFile = false ∧ a ≠ Action.startBackgroundTasks) ∧
      (∀ a ∈ post, a.isLoadInitialFile = false) ∧
      Action.startBackgroundTasks ∈ post ∧
      (if restoreCondition config parameters then Action.reloadSession ∈ pre
        else Action.newWindow ∈ pre)) ∧
    (main config parameters app).filter Action.isLoadInitialFile =
      parameters.filenames.map
        (fun filename => Action.loadInitialFile
          (if restoreCondition config parameters then MainWindow.reloaded
            else MainWindow.fresh) filename parameters.follow_file) := by
  obtain ⟨pre, hpre, hall, hwin⟩ := main_primary_decomp config parameters app hp
  have hpost : ∀ a ∈ (if restoreCondition config parameters then []
      else [Action.clearInactiveSessions]) ++ [Action.startBackgroundTasks, Action.exec],
      a.isLoadInitialFile = false := by
    intro a ha
    split at ha
    · simp at ha
      rcases ha with rfl | rfl <;> rfl
    · simp at ha
      rcases ha with rfl | rfl | rfl <;> rfl
  constructor
  · refine ⟨pre, (if restoreCondition config parameters then []
      else [Action.clearInactiveSessions]) ++ [Action.startBackgroundTasks, Action.exec],
      ?_, fun a ha => ⟨(hall a ha).1, (hall a ha).2.2⟩, hpost, by simp, hwin⟩
    rw [hpre]
    simp only [List.append_assoc]
  · rw [hpre]
    simp only [List.append_assoc, List.filter_append]
    have h1 : pre.filter Action.isLoadInitialFile = [] := by
      rw [List.filter_eq_nil_iff]
      intro a ha
      rw [(hall a ha).1]
      exact Bool.noConfusion
    have h2 : ((if restoreCondition config parameters then []
        else [Action.clearInactiveSessions]) ++
          [Action.startBackgroundTasks, Action.exec]).filter Action.isLoadInitialFile
        = [] := by
      rw [List.filter_eq_nil_iff]
      intro a ha
      rw [hpost a ha]
      exact Bool.noConfusion
    rw [List.filter_append] at h2
    rw [h1, h2, List.nil_append, List.append_nil, List.filter_eq_self]
    intro a ha
    obtain ⟨f, -, rfl⟩ := List.mem_map.mp ha
    rfl

/-- C17 on a concrete command line: with the files `a.log` and `b.log` and the
follow flag, the `loadInitialFile` calls of `main` are those two, in that
order, on the new window and with the flag set. -/
theorem loadInitialFile_calls_witness :
    (!twoFilesParameters.multi_instance && primaryApp.isSecondary) = false ∧
      (main autoRestoreConfig twoFilesParameters primaryApp).filter Action.isLoadInitialFile =
        [Action.loadInitialFile MainWindow.fresh "a.log" true,
         Action.loadInitialFile MainWindow.fresh "b.log" true] :=
  ⟨by decide,
    (loadInitialFile_calls autoRestoreConfig twoFilesParameters primaryApp (by decide)).2⟩

end Klogg
